import Mathlib

/-!
Verification of the 3D force-directed layout engine of the co-authorship
network component (`CoAuthorNetwork3D`).  The embedding below translates the
relevant parts of the component into Lean:

* `Vec3` models `THREE.Vector3` with its `add` / `sub` / `multiplyScalar` /
  `length` / `normalize` / `distanceTo` operations over the reals
  (`normalize` keeps Three.js's `divideScalar(length || 1)` guard);
* `Node` / `Link` model the `Node3D` / `Link3D` records (only the fields the
  simulation reads: `id`, `count`, `position`, `velocity`, resp. endpoint ids
  and `weight`);
* `simulatePhysics` is the per-frame step (repulsion, attraction, integration,
  stability detection) translated phase by phase, including the sequential
  mutation semantics of the original (the attraction pass reuses and hence
  rescales its `direction` vector twice, exactly as the source does);
* `drawNetwork3D` models the rebuild path of the component: installing a fresh
  node array with the spherical initial placement and zero velocities; the
  stability refs are deliberately not touched, as in the source;
* `pick` models the pointer picking query (per-node sphere radius from the
  source, ray-sphere intersection modelled from the spec since the component
  delegates it to the Three.js `Raycaster`, which is not part of this
  repository).

Render-only state (meshes, sprites, line geometries) is outside the model:
the source's line-geometry refreshes read node positions but never write any
simulation state.
-/

namespace Net3D

/-- A 3D vector, modelling `THREE.Vector3`. -/
@[ext] structure Vec3 where
  x : ℝ
  y : ℝ
  z : ℝ

namespace Vec3

/-- `THREE.Vector3.add`. -/
def add (a b : Vec3) : Vec3 := ⟨a.x + b.x, a.y + b.y, a.z + b.z⟩

/-- `THREE.Vector3.sub` / `subVectors`. -/
def sub (a b : Vec3) : Vec3 := ⟨a.x - b.x, a.y - b.y, a.z - b.z⟩

/-- `THREE.Vector3.multiplyScalar`. -/
def smul (v : Vec3) (c : ℝ) : Vec3 := ⟨v.x * c, v.y * c, v.z * c⟩

/-- `THREE.Vector3.length`. -/
noncomputable def length (v : Vec3) : ℝ := Real.sqrt (v.x ^ 2 + v.y ^ 2 + v.z ^ 2)

/-- `THREE.Vector3.normalize`: `divideScalar(length || 1)` — the zero vector is
returned unchanged rather than producing NaN. -/
noncomputable def normalize (v : Vec3) : Vec3 :=
  v.smul (1 / (if v.length = 0 then 1 else v.length))

/-- `THREE.Vector3.dot`. -/
def dot (a b : Vec3) : ℝ := a.x * b.x + a.y * b.y + a.z * b.z

/-- `THREE.Vector3.distanceTo`. -/
noncomputable def distanceTo (a b : Vec3) : ℝ := (a.sub b).length

instance : Zero Vec3 := ⟨⟨0, 0, 0⟩⟩

instance : Add Vec3 := ⟨add⟩

instance : Neg Vec3 := ⟨fun v => ⟨-v.x, -v.y, -v.z⟩⟩

instance : SMul ℝ Vec3 := ⟨fun c v => v.smul c⟩

instance : AddCommMonoid Vec3 where
  add_assoc a b c := by
    show add (add a b) c = add a (add b c)
    ext <;> simp [add] <;> ring
  zero_add a := by
    show add ⟨0, 0, 0⟩ a = a
    ext <;> simp [add]
  add_zero a := by
    show add a ⟨0, 0, 0⟩ = a
    ext <;> simp [add]
  add_comm a b := by
    show add a b = add b a
    ext <;> simp [add] <;> ring
  nsmul := nsmulRec

end Vec3

/-- A simulation node, modelling the fields of `Node3D` that the physics
reads: the author id, the paper count (`count`, the node weight) and the
mutable `position` / `velocity` vectors. -/
@[ext] structure Node where
  id : String
  count : ℝ
  position : Vec3
  velocity : Vec3

instance : Inhabited Node := ⟨⟨"", 0, 0, 0⟩⟩

/-- A link, modelling `Link3D`: the source / target author ids (the source
stores either the id or the node object and always extracts the id before
use) and the co-authorship weight. -/
structure Link where
  source : String
  target : String
  weight : ℝ

/-- `l.getD i default`: total indexing used to state per-index properties. -/
def nth (l : List Node) (i : ℕ) : Node := l.getD i default

-- The tuning constants of `simulatePhysics`, with the source's names.

/-- `damping` (source line 492). -/
def damping : ℝ := 0.7

/-- `repulsionStrength` (source line 493). -/
def repulsionStrength : ℝ := 15

/-- `attractionStrength` (source line 494). -/
def attractionStrength : ℝ := 0.004

/-- `maxVelocity` (source line 495). -/
def maxVelocity : ℝ := 0.8

/-- `minDistance` (source line 496). -/
def minDistance : ℝ := 5

/-- `stabilityThreshold` (source line 497). -/
def stabilityThreshold : ℝ := 0.02

/-- `stableFramesRequired` (source line 498). -/
def stableFramesRequired : ℕ := 15

/-- `idealDistance` (source line 528). -/
def idealDistance : ℝ := 80

/-- `maxDistance` (source line 562), the position clamp radius
(the spec's `maxRadius`). -/
def maxDistance : ℝ := 150

/-- One iteration of the repulsion pass's outer loop body for node `a` at
index `i`: the velocity is first scaled by `damping`, then for every other
index `j` with distance above `minDistance` the repulsive force
`repulsionStrength / (d·d + 1)` along `normalize(posA − posB)` is added
(source lines 503-517).  Positions are only read in this pass, so the
per-node updates are independent. -/
noncomputable def repulsionUpdate (nodes : List Node) (i : ℕ) (a : Node) : Node :=
  { a with
    velocity :=
      nodes.enum.foldl
        (fun v p =>
          if i = p.1 then v
          else
            let d := a.position.distanceTo p.2.position
            if minDistance < d then
              v + (a.position.sub p.2.position).normalize.smul
                    (repulsionStrength / (d * d + 1))
            else v)
        (a.velocity.smul damping) }

/-- The repulsion pass (source lines 503-517): `nodes.forEach((nodeA, i) => …)`. -/
noncomputable def repulsionPhase (nodes : List Node) : List Node :=
  nodes.enum.map (fun p => repulsionUpdate nodes p.1 p.2)

/-- Update the first node whose `id` matches (the object returned by
`nodes.find(...)` in the source), applying `f` to its velocity. -/
def updateFirst (nodes : List Node) (nid : String) (f : Vec3 → Vec3) : List Node :=
  match nodes with
  | [] => []
  | n :: rest =>
    if n.id = nid then { n with velocity := f n.velocity } :: rest
    else n :: updateFirst rest nid f

/-- The attraction pass's body for one link (source lines 520-539).  Both
endpoints are looked up by id; a missing endpoint drops the link.  The force
is `(d − idealDistance) · attractionStrength · (weight || 1)`; when its
magnitude exceeds `0.001` the source executes

  `sourceNode.velocity.add(direction.multiplyScalar(force));`
  `targetNode.velocity.sub(direction.multiplyScalar(force));`

`multiplyScalar` mutates `direction` in place, so the source velocity gains
`direction · force` while the target velocity loses the twice-scaled
`direction · force · force`; the embedding reproduces this. -/
noncomputable def applyLink (nodes : List Node) (l : Link) : List Node :=
  match nodes.find? (fun n => n.id = l.source), nodes.find? (fun n => n.id = l.target) with
  | some sourceNode, some targetNode =>
    let d := sourceNode.position.distanceTo targetNode.position
    let force := (d - idealDistance) * attractionStrength *
      (if l.weight = 0 then 1 else l.weight)
    if 0.001 < |force| then
      let direction := (targetNode.position.sub sourceNode.position).normalize
      let firstScaled := direction.smul force
      let secondScaled := firstScaled.smul force
      updateFirst
        (updateFirst nodes l.source (fun v => v + firstScaled))
        l.target (fun v => v.sub secondScaled)
    else nodes
  | _, _ => nodes

/-- The attraction pass (source lines 520-540): `links.forEach(...)`. -/
noncomputable def attractionPhase (nodes : List Node) (links : List Link) : List Node :=
  links.foldl applyLink nodes

/-- Position clamp (source lines 562-565): renormalize onto the
`maxDistance` sphere when the magnitude exceeds it. -/
noncomputable def clampPosition (p : Vec3) : Vec3 :=
  if maxDistance < p.length then p.normalize.smul maxDistance else p

/-- Per-node integration (source lines 543-559): clamp the speed to
`maxVelocity`; record-keeping aside, if the (pre-clamp) speed is below the
`0.003` dead zone the velocity is snapped to zero and the position is left
alone, otherwise half of the clamped velocity is added to the position;
finally the position is clamped to the `maxDistance` sphere. -/
noncomputable def integrateNode (n : Node) : Node :=
  let speed := n.velocity.length
  let v1 := if maxVelocity < speed then n.velocity.normalize.smul maxVelocity
            else n.velocity
  if speed < 0.003 then
    { n with velocity := 0, position := clampPosition n.position }
  else
    { n with velocity := v1, position := clampPosition (n.position + v1.smul 0.5) }

/-- The maximum per-node (pre-clamp) speed recorded by the update loop
(source lines 500, 545, 550): `maxSpeed = Math.max(maxSpeed, speed)` starting
from `0`. -/
noncomputable def maxSpeedOf (nodes : List Node) : ℝ :=
  nodes.foldl (fun m n => max m n.velocity.length) 0

/-- The component state the simulation reads and writes: the node and link
refs, the `isStableRef` flag and the `stableFrameCountRef` counter. -/
structure SimState where
  nodes : List Node
  links : List Link
  isStable : Bool
  stableFrameCount : ℕ

/-- One invocation of `simulatePhysics` (source lines 449-610).  `hasSearch`
is `searchText.trim().length > 0`.  The three early returns (no nodes, search
pinning, already stable) leave the simulation state untouched (they only
refresh render-side line geometries).  Otherwise the repulsion and attraction
passes run, every node is integrated, and the recorded maximum speed drives
the stability counter: below `stabilityThreshold` it increments, reaching
`stableFramesRequired` sets `isStable` and zeroes every velocity, and at or
above the threshold it resets to `0`. -/
noncomputable def simulatePhysics (hasSearch : Bool) (s : SimState) : SimState :=
  if s.nodes.length = 0 then s
  else if hasSearch then s
  else if s.isStable then s
  else
    let n2 := attractionPhase (repulsionPhase s.nodes) s.links
    let maxSpeed := maxSpeedOf n2
    let n3 := n2.map integrateNode
    if maxSpeed < stabilityThreshold then
      if stableFramesRequired ≤ s.stableFrameCount + 1 then
        { nodes := n3.map (fun n => { n with velocity := 0 }),
          links := s.links,
          isStable := true,
          stableFrameCount := s.stableFrameCount + 1 }
      else
        { s with nodes := n3, stableFrameCount := s.stableFrameCount + 1 }
    else
      { s with nodes := n3, stableFrameCount := 0 }

/-- The recorded maximum speed of a step taken from `s` (what the source's
`maxSpeed` variable holds after the update loop). -/
noncomputable def recordedMaxSpeed (s : SimState) : ℝ :=
  maxSpeedOf (attractionPhase (repulsionPhase s.nodes) s.links)

/-- A sequence of `simulatePhysics` invocations with the given per-frame
`hasSearch` flags. -/
noncomputable def stepsOver (flags : List Bool) (s : SimState) : SimState :=
  flags.foldl (fun t h => simulatePhysics h t) s

/-- The initial placement of node `index` of `n` (source lines 348-364):
`theta = acos(2·(index/n) − 1)`, `phi = 2π·index·0.618`, position
`100 · (sinθ·cosφ, sinθ·sinφ, cosθ)`. -/
noncomputable def initPosition (i n : ℕ) : Vec3 :=
  let theta := Real.arccos (2 * ((i : ℝ) / (n : ℝ)) - 1)
  let phi := 2 * Real.pi * (i : ℝ) * 0.618
  ⟨100 * Real.sin theta * Real.cos phi,
   100 * Real.sin theta * Real.sin phi,
   100 * Real.cos theta⟩

/-- The rebuild path of `drawNetwork3D` (source lines 237-371) as it affects
the simulation state: when the display node list is empty the function
returns early keeping the previous refs; otherwise a fresh node array is
installed (initial spherical placement, zero velocities) together with the
new links.  `isStableRef` and `stableFrameCountRef` are not touched — no
code path of the component ever resets them. -/
noncomputable def drawNetwork3D (s : SimState) (newNodes : List (String × ℝ))
    (newLinks : List Link) : SimState :=
  if newNodes.length = 0 then s
  else
    { s with
      nodes := newNodes.enum.map (fun p =>
        { id := p.2.1
          count := p.2.2
          position := initPosition p.1 newNodes.length
          velocity := 0 }),
      links := newLinks }

/-- The initial placement the spec describes (claim C5): for node `i` of `n`,
`y = 1 − 2·i/(n−1)`, `r = sqrt(1 − y²)`, `θ = i · π·(3 − √5)`,
position `R0 · (r·cosθ, y, r·sinθ)`. -/
noncomputable def specInitPosition (R0 : ℝ) (i n : ℕ) : Vec3 :=
  let y := 1 - 2 * (i : ℝ) / ((n : ℝ) - 1)
  let r := Real.sqrt (1 - y ^ 2)
  let theta := (i : ℝ) * (Real.pi * (3 - Real.sqrt 5))
  ⟨R0 * (r * Real.cos theta), R0 * y, R0 * (r * Real.sin theta)⟩

/-- The per-node picking sphere radius (source line 375):
`Math.sqrt(node.count) * 2 + 3`. -/
noncomputable def nodeRadius (n : Node) : ℝ := Real.sqrt n.count * 2 + 3

/-- Modelled from the spec: the component delegates ray-sphere intersection
to the Three.js `Raycaster` (source lines 194-205), whose code is not part of
this repository; the spec prescribes standard ray-sphere intersection
returning the smallest positive hit distance along the ray, `none` on a
miss.  For a normalized direction `d` the hit parameters solve
`t² + 2·(oc·d)·t + (oc·oc − r²) = 0` with `oc = o − c`. -/
noncomputable def raySphereHit (o d c : Vec3) (r : ℝ) : Option ℝ :=
  let oc := o.sub c
  let b := oc.dot d
  let disc := b ^ 2 - (oc.dot oc - r ^ 2)
  if disc < 0 then none
  else
    let t1 := -b - Real.sqrt disc
    let t2 := -b + Real.sqrt disc
    if 0 < t1 then some t1 else if 0 < t2 then some t2 else none

/-- The hit distance of the ray against one node's picking sphere. -/
noncomputable def hitOf (o d : Vec3) (n : Node) : Option ℝ :=
  raySphereHit o d n.position (nodeRadius n)

/-- One step of the picking fold: keep the best (smallest, earliest on ties)
positive hit so far. -/
noncomputable def pickStep (o d : Vec3) (best : Option (String × ℝ)) (n : Node) :
    Option (String × ℝ) :=
  match hitOf o d n with
  | none => best
  | some t =>
    match best with
    | none => some (n.id, t)
    | some (j, tb) => if t < tb then some (n.id, t) else some (j, tb)

/-- The picking query: among all nodes whose picking sphere the ray hits,
the one with the smallest positive hit distance (the first such node in
iteration order on ties), as `intersects[0]` of the sorted `Raycaster`
result (source lines 200-216); `none` when nothing is hit. -/
noncomputable def pick (o d : Vec3) (nodes : List Node) : Option (String × ℝ) :=
  nodes.foldl (pickStep o d) none

/-- Correctness relation for the `pick` fold: from accumulator `b` and the
remaining nodes `ns`, the result `r` is `none` only when nothing was or is
hit, and otherwise holds a positive hit no farther than the accumulator and
than every hit among `ns`. -/
def PickGood (o d : Vec3) (ns : List Node) (b r : Option (String × ℝ)) : Prop :=
  match r with
  | none => b = none ∧ ∀ n ∈ ns, hitOf o d n = none
  | some (i, t) =>
      (b = some (i, t) ∨ ∃ n ∈ ns, n.id = i ∧ hitOf o d n = some t)
      ∧ (∀ p : String × ℝ, b = some p → t ≤ p.2)
      ∧ (∀ n ∈ ns, ∀ u : ℝ, hitOf o d n = some u → t ≤ u)

/-- The integration speed clamp as the spec states it: rescale to magnitude
`maxVelocity` when the speed exceeds it. -/
noncomputable def clampVelocity (v : Vec3) : Vec3 :=
  if maxVelocity < v.length then v.normalize.smul maxVelocity else v

/-- Node `i`'s velocity after the repulsion and attraction passes of a step
from `s`: the velocity entering the integration loop. -/
noncomputable def afterForces (s : SimState) (i : ℕ) : Vec3 :=
  (nth (attractionPhase (repulsionPhase s.nodes) s.links) i).velocity

/-- The repulsive force one ordered pair contributes (the spec's sentence for
one pair `(A, B)`): magnitude `repulsionStrength / (d² + 1)` directed from B
toward A when `d > minDistance`, nothing otherwise. -/
noncomputable def repulsionContribution (a b : Node) : Vec3 :=
  let d := a.position.distanceTo b.position
  if minDistance < d then
    (a.position.sub b.position).normalize.smul (repulsionStrength / (d * d + 1))
  else 0

/-- Relation between a node before and after the attraction pass: identity,
paper count and position are untouched and the velocity has only been
shifted by some accumulated force. -/
def VelShift (a b : Node) : Prop :=
  b.id = a.id ∧ b.count = a.count ∧ b.position = a.position ∧
    ∃ dv : Vec3, b.velocity = a.velocity + dv

/-- The boundedness invariant of claim C1: every node's position magnitude is
at most `maxDistance` and its velocity magnitude at most `maxVelocity`. -/
def Bounded (s : SimState) : Prop :=
  ∀ n ∈ s.nodes, n.position.length ≤ maxDistance ∧ n.velocity.length ≤ maxVelocity

section VecLemmas

namespace Vec3

lemma zero_def : (0 : Vec3) = ⟨0, 0, 0⟩ := rfl

lemma add_def (a b : Vec3) : a + b = ⟨a.x + b.x, a.y + b.y, a.z + b.z⟩ := rfl

lemma smul_def (c : ℝ) (v : Vec3) : c • v = ⟨v.x * c, v.y * c, v.z * c⟩ := rfl

lemma length_nonneg (v : Vec3) : 0 ≤ v.length := Real.sqrt_nonneg _

lemma length_zero : (0 : Vec3).length = 0 := by
  simp [length, zero_def]

lemma length_smul (v : Vec3) (c : ℝ) : (v.smul c).length = |c| * v.length := by
  have h : (v.x * c) ^ 2 + (v.y * c) ^ 2 + (v.z * c) ^ 2
      = c ^ 2 * (v.x ^ 2 + v.y ^ 2 + v.z ^ 2) := by ring
  rw [length, smul, length]
  simp only
  rw [h, Real.sqrt_mul (sq_nonneg c), Real.sqrt_sq_eq_abs]

lemma length_normalize_le_one (v : Vec3) : v.normalize.length ≤ 1 := by
  rw [normalize, length_smul]
  by_cases h : v.length = 0
  · simp [h]
  · have hpos : 0 < v.length := lt_of_le_of_ne (length_nonneg v) (Ne.symm h)
    rw [if_neg h, abs_of_pos (by positivity), one_div, inv_mul_cancel₀ h]

lemma length_normalize_of_ne_zero (v : Vec3) (h : v.length ≠ 0) :
    v.normalize.length = 1 := by
  have hpos : 0 < v.length := lt_of_le_of_ne (length_nonneg v) (Ne.symm h)
  rw [normalize, length_smul, if_neg h, abs_of_pos (by positivity), one_div,
    inv_mul_cancel₀ h]

lemma abs_x_le_length (v : Vec3) : |v.x| ≤ v.length := by
  rw [length, show |v.x| = Real.sqrt (v.x ^ 2) from (Real.sqrt_sq_eq_abs _).symm]
  exact Real.sqrt_le_sqrt (by nlinarith [sq_nonneg v.y, sq_nonneg v.z])

lemma abs_y_le_length (v : Vec3) : |v.y| ≤ v.length := by
  rw [length, show |v.y| = Real.sqrt (v.y ^ 2) from (Real.sqrt_sq_eq_abs _).symm]
  exact Real.sqrt_le_sqrt (by nlinarith [sq_nonneg v.x, sq_nonneg v.z])

lemma abs_z_le_length (v : Vec3) : |v.z| ≤ v.length := by
  rw [length, show |v.z| = Real.sqrt (v.z ^ 2) from (Real.sqrt_sq_eq_abs _).symm]
  exact Real.sqrt_le_sqrt (by nlinarith [sq_nonneg v.x, sq_nonneg v.y])

lemma sub_self_eq_zero (a : Vec3) : a.sub a = 0 := by
  ext <;> simp [sub, zero_def]

lemma sub_eq_add_neg_vec (a b : Vec3) : a.sub b = a + ⟨-b.x, -b.y, -b.z⟩ := by
  ext <;> simp [sub, add_def] <;> ring

lemma sub_zero_vec (a : Vec3) : a.sub 0 = a := by
  ext <;> simp [sub, zero_def]

lemma normalize_zero : (0 : Vec3).normalize = 0 := by
  ext <;> simp [normalize, smul, zero_def]

lemma smul_zero_vec (c : ℝ) : (0 : Vec3).smul c = 0 := by
  ext <;> simp [smul, zero_def]

end Vec3

end VecLemmas

section ListHelpers

lemma nth_cons_zero (a : Node) (l : List Node) : nth (a :: l) 0 = a := rfl

lemma nth_cons_succ (a : Node) (l : List Node) (i : ℕ) :
    nth (a :: l) (i + 1) = nth l i := rfl

lemma nth_eq_get (l : List Node) (i : ℕ) (h : i < l.length) :
    nth l i = l.get ⟨i, h⟩ := by
  simp [nth, List.getD, List.getElem?_eq_getElem h, List.get_eq_getElem]

lemma nth_enumFrom_map {α : Type} (g : ℕ × α → Node) :
    ∀ (l : List α) (k i : ℕ) (h : i < l.length),
      nth ((List.enumFrom k l).map g) i = g (k + i, l.get ⟨i, h⟩) := by
  intro l
  induction l with
  | nil => intro k i h; simp at h
  | cons a l ih =>
    intro k i h
    cases i with
    | zero => simp [List.enumFrom, nth_cons_zero]
    | succ i =>
      have h2 : i < l.length := by simpa using Nat.lt_of_succ_lt_succ h
      rw [show List.enumFrom k (a :: l) = (k, a) :: List.enumFrom (k + 1) l from rfl]
      rw [List.map_cons, nth_cons_succ, ih (k + 1) i h2]
      congr 2
      omega

lemma nth_map (f : Node → Node) :
    ∀ (l : List Node) (i : ℕ), i < l.length → nth (l.map f) i = f (nth l i) := by
  intro l
  induction l with
  | nil => intro i h; simp at h
  | cons a l ih =>
    intro i h
    cases i with
    | zero => simp [nth_cons_zero]
    | succ i =>
      rw [List.map_cons, nth_cons_succ, nth_cons_succ]
      exact ih i (by simpa using Nat.lt_of_succ_lt_succ h)

lemma foldl_fun_congr {α β : Type} (f g : α → β → α)
    (h : ∀ v p, f v p = g v p) (l : List β) (v0 : α) :
    l.foldl f v0 = l.foldl g v0 := by
  have hfg : f = g := funext fun v => funext fun p => h v p
  rw [hfg]

lemma foldl_enumFrom_add_sum (f : ℕ × Node → Vec3) :
    ∀ (l : List Node) (k : ℕ) (v0 : Vec3),
      (List.enumFrom k l).foldl (fun v p => v + f p) v0
        = v0 + ∑ j : Fin l.length, f (k + (j : ℕ), l.get j) := by
  intro l
  induction l with
  | nil => intro k v0; simp
  | cons a l ih =>
    intro k v0
    rw [show List.enumFrom k (a :: l) = (k, a) :: List.enumFrom (k + 1) l from rfl,
      List.foldl_cons, ih (k + 1) (v0 + f (k, a))]
    simp only [List.length_cons]
    rw [Fin.sum_univ_succ, add_assoc]
    congr 1
    congr 1
    apply Finset.sum_congr rfl
    intro j _
    rw [show k + 1 + (j : ℕ) = k + ((j : ℕ) + 1) from by omega]
    simp [Fin.val_succ, List.get_eq_getElem, List.getElem_cons_succ]

end ListHelpers

section RepulsionLemmas

lemma repulsionUpdate_velocity (nodes : List Node) (i : ℕ) (a : Node) :
    (repulsionUpdate nodes i a).velocity
      = damping • a.velocity + ∑ j : Fin nodes.length,
          (if (j : ℕ) = i then 0 else repulsionContribution a (nodes.get j)) := by
  have hunfold : (repulsionUpdate nodes i a).velocity
      = nodes.enum.foldl
          (fun v p =>
            if i = p.1 then v
            else
              let d := a.position.distanceTo p.2.position
              if minDistance < d then
                v + (a.position.sub p.2.position).normalize.smul
                      (repulsionStrength / (d * d + 1))
              else v)
          (a.velocity.smul damping) := rfl
  have hpt : ∀ (v : Vec3) (p : ℕ × Node),
      (if i = p.1 then v
       else
         let d := a.position.distanceTo p.2.position
         if minDistance < d then
           v + (a.position.sub p.2.position).normalize.smul
                 (repulsionStrength / (d * d + 1))
         else v)
      = v + (fun q : ℕ × Node =>
          if q.1 = i then 0 else repulsionContribution a q.2) p := by
    intro v p
    by_cases h : i = p.1
    · simp [h]
    · have h2 : ¬ p.1 = i := fun hc => h hc.symm
      simp only [if_neg h, if_neg h2, repulsionContribution]
      by_cases hd : minDistance < a.position.distanceTo p.2.position
      · simp [hd]
      · simp [hd]
  rw [hunfold,
    foldl_fun_congr _
      (fun v p => v + (fun q : ℕ × Node =>
        if q.1 = i then 0 else repulsionContribution a q.2) p) hpt,
    show nodes.enum = List.enumFrom 0 nodes from rfl,
    foldl_enumFrom_add_sum]
  simp only [Nat.zero_add]
  rfl

lemma repulsionUpdate_shape (nodes : List Node) (i : ℕ) (a : Node) :
    (repulsionUpdate nodes i a).id = a.id ∧
    (repulsionUpdate nodes i a).count = a.count ∧
    (repulsionUpdate nodes i a).position = a.position := by
  refine ⟨rfl, rfl, rfl⟩

lemma repulsionPhase_length (nodes : List Node) :
    (repulsionPhase nodes).length = nodes.length := by
  simp [repulsionPhase, List.enum_length]

lemma repulsionPhase_nth (nodes : List Node) (i : ℕ) (h : i < nodes.length) :
    nth (repulsionPhase nodes) i = repulsionUpdate nodes i (nth nodes i) := by
  have := nth_enumFrom_map (fun p => repulsionUpdate nodes p.1 p.2) nodes 0 i h
  rw [repulsionPhase, show nodes.enum = List.enumFrom 0 nodes from rfl, this,
    ← nth_eq_get nodes i h]
  simp

end RepulsionLemmas

section AttractionLemmas

lemma velShift_refl (a : Node) : VelShift a a :=
  ⟨rfl, rfl, rfl, 0, by rw [add_zero]⟩

lemma velShift_trans {a b c : Node} (h1 : VelShift a b) (h2 : VelShift b c) :
    VelShift a c := by
  obtain ⟨hi1, hc1, hp1, d1, hv1⟩ := h1
  obtain ⟨hi2, hc2, hp2, d2, hv2⟩ := h2
  exact ⟨hi2.trans hi1, hc2.trans hc1, hp2.trans hp1, d1 + d2, by
    rw [hv2, hv1, add_assoc]⟩

lemma forall₂_velShift_refl (l : List Node) : List.Forall₂ VelShift l l := by
  induction l with
  | nil => exact List.Forall₂.nil
  | cons a l ih => exact List.Forall₂.cons (velShift_refl a) ih

lemma forall₂_velShift_trans :
    ∀ {l1 l2 l3 : List Node}, List.Forall₂ VelShift l1 l2 →
      List.Forall₂ VelShift l2 l3 → List.Forall₂ VelShift l1 l3 := by
  intro l1 l2 l3 h1
  induction h1 generalizing l3 with
  | nil =>
    intro h2
    cases h2
    exact List.Forall₂.nil
  | cons hab h1 ih =>
    intro h2
    cases h2 with
    | cons hbc h2 => exact List.Forall₂.cons (velShift_trans hab hbc) (ih h2)

lemma updateFirst_velShift (nodes : List Node) (nid : String) (c : Vec3) :
    List.Forall₂ VelShift nodes (updateFirst nodes nid (fun v => v + c)) := by
  induction nodes with
  | nil => exact List.Forall₂.nil
  | cons n rest ih =>
    rw [updateFirst]
    by_cases h : n.id = nid
    · rw [if_pos h]
      exact List.Forall₂.cons ⟨rfl, rfl, rfl, c, rfl⟩ (forall₂_velShift_refl rest)
    · rw [if_neg h]
      exact List.Forall₂.cons (velShift_refl n) ih

lemma updateFirst_velShift_sub (nodes : List Node) (nid : String) (c : Vec3) :
    List.Forall₂ VelShift nodes (updateFirst nodes nid (fun v => v.sub c)) := by
  induction nodes with
  | nil => exact List.Forall₂.nil
  | cons n rest ih =>
    rw [updateFirst]
    by_cases h : n.id = nid
    · rw [if_pos h]
      exact List.Forall₂.cons
        ⟨rfl, rfl, rfl, ⟨-c.x, -c.y, -c.z⟩, Vec3.sub_eq_add_neg_vec _ c⟩
        (forall₂_velShift_refl rest)
    · rw [if_neg h]
      exact List.Forall₂.cons (velShift_refl n) ih

lemma applyLink_velShift (nodes : List Node) (l : Link) :
    List.Forall₂ VelShift nodes (applyLink nodes l) := by
  rw [applyLink]
  cases hfs : nodes.find? (fun n => n.id = l.source) with
  | none => exact forall₂_velShift_refl nodes
  | some sourceNode =>
    cases hft : nodes.find? (fun n => n.id = l.target) with
    | none => exact forall₂_velShift_refl nodes
    | some targetNode =>
      simp only
      split_ifs with h1 h2 h3
      · exact forall₂_velShift_trans
          (updateFirst_velShift nodes l.source _)
          (updateFirst_velShift_sub _ l.target _)
      · exact forall₂_velShift_refl nodes
      · exact forall₂_velShift_trans
          (updateFirst_velShift nodes l.source _)
          (updateFirst_velShift_sub _ l.target _)
      · exact forall₂_velShift_refl nodes

lemma attractionPhase_velShift (links : List Link) :
    ∀ nodes : List Node, List.Forall₂ VelShift nodes (attractionPhase nodes links) := by
  induction links with
  | nil => intro nodes; exact forall₂_velShift_refl nodes
  | cons l links ih =>
    intro nodes
    rw [attractionPhase, List.foldl_cons]
    exact forall₂_velShift_trans (applyLink_velShift nodes l) (ih (applyLink nodes l))

lemma forall₂_nth {l1 l2 : List Node} (h : List.Forall₂ VelShift l1 l2) :
    ∀ i : ℕ, i < l1.length → VelShift (nth l1 i) (nth l2 i) := by
  induction h with
  | nil => intro i hi; simp at hi
  | cons hab h ih =>
    intro i hi
    cases i with
    | zero => exact hab
    | succ i =>
      rw [nth_cons_succ, nth_cons_succ]
      exact ih i (by simpa using Nat.lt_of_succ_lt_succ hi)

lemma attractionPhase_length (nodes : List Node) (links : List Link) :
    (attractionPhase nodes links).length = nodes.length :=
  ((attractionPhase_velShift links nodes).length_eq).symm

end AttractionLemmas

section BoundLemmas

lemma clampPosition_length_le (p : Vec3) : (clampPosition p).length ≤ maxDistance := by
  rw [clampPosition]
  split_ifs with h
  · rw [Vec3.length_smul]
    have h1 := Vec3.length_normalize_le_one p
    have h2 : |maxDistance| = maxDistance := abs_of_nonneg (by norm_num [maxDistance])
    rw [h2]
    nlinarith [Vec3.length_nonneg p.normalize, show (0:ℝ) ≤ maxDistance from by
      norm_num [maxDistance]]
  · exact le_of_not_lt h

lemma integrateNode_position_le (n : Node) :
    (integrateNode n).position.length ≤ maxDistance := by
  simp only [integrateNode]
  split_ifs <;> exact clampPosition_length_le _

lemma integrateNode_velocity_le (n : Node) :
    (integrateNode n).velocity.length ≤ maxVelocity := by
  simp only [integrateNode]
  split_ifs with h1 h2
  · show (0 : Vec3).length ≤ maxVelocity
    rw [Vec3.length_zero]
    norm_num [maxVelocity]
  · show (n.velocity.normalize.smul maxVelocity).length ≤ maxVelocity
    have hne : n.velocity.length ≠ 0 := by
      intro h0
      rw [h0] at h2
      norm_num [maxVelocity] at h2
    rw [Vec3.length_smul, Vec3.length_normalize_of_ne_zero _ hne, mul_one,
      abs_of_nonneg (by norm_num [maxVelocity] : (0:ℝ) ≤ maxVelocity)]
  · exact le_of_not_lt h2

lemma bounded_simulatePhysics (b : Bool) (s : SimState) (h : Bounded s) :
    Bounded (simulatePhysics b s) := by
  simp only [simulatePhysics]
  split_ifs with h1 h2 h3 h4 h5
  · exact h
  · exact h
  · exact h
  · intro n hn
    rcases List.mem_map.1 hn with ⟨m, hm, rfl⟩
    rcases List.mem_map.1 hm with ⟨m2, _, rfl⟩
    refine ⟨integrateNode_position_le m2, ?_⟩
    show (0 : Vec3).length ≤ maxVelocity
    rw [Vec3.length_zero]
    norm_num [maxVelocity]
  · intro n hn
    rcases List.mem_map.1 hn with ⟨m2, _, rfl⟩
    exact ⟨integrateNode_position_le m2, integrateNode_velocity_le m2⟩
  · intro n hn
    rcases List.mem_map.1 hn with ⟨m2, _, rfl⟩
    exact ⟨integrateNode_position_le m2, integrateNode_velocity_le m2⟩

lemma bounded_stepsOver (flags : List Bool) :
    ∀ s : SimState, Bounded s → Bounded (stepsOver flags s) := by
  induction flags with
  | nil => intro s h; exact h
  | cons f fs ih =>
    intro s h
    rw [stepsOver, List.foldl_cons]
    exact ih (simulatePhysics f s) (bounded_simulatePhysics f s h)

lemma initPosition_length (i n : ℕ) : (initPosition i n).length = 100 := by
  simp only [initPosition, Vec3.length]
  set θ := Real.arccos (2 * ((i : ℝ) / (n : ℝ)) - 1) with hθ
  set φ := 2 * Real.pi * (i : ℝ) * 0.618 with hφ
  have h : (100 * Real.sin θ * Real.cos φ) ^ 2 + (100 * Real.sin θ * Real.sin φ) ^ 2
        + (100 * Real.cos θ) ^ 2
      = 100 ^ 2 * (Real.sin θ ^ 2 * (Real.cos φ ^ 2 + Real.sin φ ^ 2)
        + Real.cos θ ^ 2) := by ring
  rw [h, Real.cos_sq_add_sin_sq, mul_one, Real.sin_sq_add_cos_sq, mul_one,
    Real.sqrt_sq (by norm_num : (0 : ℝ) ≤ 100)]

lemma bounded_drawNetwork3D (s : SimState) (nn : List (String × ℝ))
    (nl : List Link) (h : Bounded s) : Bounded (drawNetwork3D s nn nl) := by
  rw [drawNetwork3D]
  split_ifs with h0
  · exact h
  · intro n hn
    rcases List.mem_map.1 hn with ⟨p, _, rfl⟩
    constructor
    · show (initPosition p.1 nn.length).length ≤ maxDistance
      rw [initPosition_length]
      norm_num [maxDistance]
    · show (0 : Vec3).length ≤ maxVelocity
      rw [Vec3.length_zero]
      norm_num [maxVelocity]

end BoundLemmas

section StepLemmas

lemma stable_step_noop (t : SimState) (b : Bool) (h : t.isStable = true) :
    simulatePhysics b t = t := by
  rw [simulatePhysics]
  by_cases h1 : t.nodes.length = 0
  · rw [if_pos h1]
  · rw [if_neg h1]
    by_cases h2 : b = true
    · rw [if_pos h2]
    · rw [if_neg h2, if_pos h]

lemma search_step_noop (t : SimState) : simulatePhysics true t = t := by
  rw [simulatePhysics]
  by_cases h : t.nodes.length = 0
  · rw [if_pos h]
  · rw [if_neg h, if_pos rfl]

lemma simulatePhysics_main (s : SimState)
    (hstable : s.isStable = false) (hne : ¬ s.nodes.length = 0) :
    simulatePhysics false s
      = (if maxSpeedOf (attractionPhase (repulsionPhase s.nodes) s.links)
            < stabilityThreshold then
           if stableFramesRequired ≤ s.stableFrameCount + 1 then
             { nodes := ((attractionPhase (repulsionPhase s.nodes) s.links).map
                   integrateNode).map (fun n => { n with velocity := 0 }),
               links := s.links,
               isStable := true,
               stableFrameCount := s.stableFrameCount + 1 }
           else
             { s with
               nodes := (attractionPhase (repulsionPhase s.nodes) s.links).map
                 integrateNode,
               stableFrameCount := s.stableFrameCount + 1 }
         else
           { s with
             nodes := (attractionPhase (repulsionPhase s.nodes) s.links).map
               integrateNode,
             stableFrameCount := 0 }) := by
  rw [simulatePhysics, if_neg hne, if_neg Bool.false_ne_true,
    if_neg (by simp [hstable] : ¬ s.isStable = true)]

end StepLemmas

/-- Claim C1: for every input graph installed by a rebuild from a bounded
previous state, after every step of any step sequence — the per-frame
pinned/search flags are arbitrary, so this also covers steps taken in
pinned/search mode and after the stable flag is set — every node's position
magnitude is at most `maxDistance` (150) and every node's velocity magnitude
is at most `maxVelocity` (0.8). -/
theorem c1_boundedness (base : SimState) (hbase : Bounded base)
    (nn : List (String × ℝ)) (nl : List Link) (flags : List Bool) :
    ∀ n ∈ (stepsOver flags (drawNetwork3D base nn nl)).nodes,
      n.position.length ≤ maxDistance ∧ n.velocity.length ≤ maxVelocity :=
  bounded_stepsOver flags _ (bounded_drawNetwork3D base nn nl hbase)

/-- Witness for C1: the empty previous state is bounded, and after rebuilding
with one author and taking one non-pinned step the bounds hold for the
resulting node. -/
theorem c1_boundedness_witness :
    Bounded ⟨[], [], false, 0⟩
    ∧ ∀ n ∈ (stepsOver [false]
          (drawNetwork3D ⟨[], [], false, 0⟩ [("a", 1)] [])).nodes,
        n.position.length ≤ maxDistance ∧ n.velocity.length ≤ maxVelocity := by
  have hbase : Bounded ⟨[], [], false, 0⟩ := by
    intro n hn
    simp at hn
  exact ⟨hbase, c1_boundedness ⟨[], [], false, 0⟩ hbase [("a", 1)] [] [false]⟩

/-- Claim C6: with the pinned/search flag set, any number of `simulatePhysics`
invocations leaves the entire simulation state — in particular every node's
position and every node's velocity — unchanged: the step returns before the
force model (repulsion, attraction, damping, integration), and the source
only refreshes edge-line endpoint render geometry from the frozen node
positions. -/
theorem c6_pinned_identity (s : SimState) (k : ℕ) :
    (fun t => simulatePhysics true t)^[k] s = s := by
  induction k with
  | zero => rfl
  | succ k ih =>
    rw [Function.iterate_succ_apply, search_step_noop, ih]

/-- Claim C2 (refuted by the code): once `isStable` is set, a topology change
does not return the engine to RUNNING: no code path of the component ever
clears `isStableRef`, so after a rebuild from a stable state the flag is
still set and a subsequent step invocation is a no-op — physics stepping
never resumes on the new graph.  Evaluated at a concrete stable one-node
state rebuilt with a fresh one-author graph.  (The other half of the claim —
that no mere re-render restarts simulation — is what the code in fact
guarantees for every event.) -/
theorem c2_stable_never_resumes :
    (drawNetwork3D ⟨[⟨"a", 1, ⟨0, 0, 0⟩, 0⟩], [], true, 15⟩ [("b", 2)] []).isStable
      = true
    ∧ simulatePhysics false
        (drawNetwork3D ⟨[⟨"a", 1, ⟨0, 0, 0⟩, 0⟩], [], true, 15⟩ [("b", 2)] [])
      = drawNetwork3D ⟨[⟨"a", 1, ⟨0, 0, 0⟩, 0⟩], [], true, 15⟩ [("b", 2)] [] := by
  have hst : (drawNetwork3D ⟨[⟨"a", 1, ⟨0, 0, 0⟩, 0⟩], [], true, 15⟩
      [("b", 2)] []).isStable = true := by
    rw [drawNetwork3D]
    norm_num
  exact ⟨hst, stable_step_noop _ false hst⟩

lemma initPosition_zero (n : ℕ) : initPosition 0 n = ⟨0, 0, -100⟩ := by
  have h1 : 2 * (((0 : ℕ) : ℝ) / (n : ℝ)) - 1 = -1 := by simp
  have h2 : 2 * Real.pi * ((0 : ℕ) : ℝ) * 0.618 = 0 := by simp
  simp only [initPosition, h1, h2, Real.arccos_neg_one, Real.sin_pi, Real.cos_pi,
    Real.cos_zero, Real.sin_zero]
  ext <;> norm_num

/-- Claim C5 (counterexample): the spec's golden-angle formula does not match
the code's placement.  For node 0 of a 2-node graph the spec formula (with
the code's sphere radius `R0 = 100`) has `y = 1`, hence `r = sqrt(1 − y²) = 0`
and z-component `R0·r·sinθ = 0`, while the code places the node at
z-component `100·cos(arccos(2·0/2 − 1)) = −100`. -/
theorem c5_counterexample :
    (specInitPosition 100 0 2).z
      ≠ (nth (drawNetwork3D ⟨[], [], false, 0⟩ [("a", 1), ("b", 1)] []).nodes 0).position.z := by
  have hspec : (specInitPosition 100 0 2).z = 0 := by
    simp [specInitPosition]
  have hcode : nth (drawNetwork3D ⟨[], [], false, 0⟩ [("a", 1), ("b", 1)] []).nodes 0
      = { id := "a", count := 1, position := initPosition 0 2, velocity := 0 } := by
    rw [drawNetwork3D, if_neg (by norm_num)]
    refine (nth_enumFrom_map
      (fun p => { id := p.2.1, count := p.2.2,
                  position := initPosition p.1
                    ([(("a" : String), (1 : ℝ)), ("b", 1)]).length,
                  velocity := (0 : Vec3) })
      [("a", 1), ("b", 1)] 0 0 (by norm_num)).trans ?_
    norm_num
  rw [hspec, hcode, initPosition_zero]
  norm_num

/-- Claim C5 (amended): initialization places node `i` of the `n` displayed
nodes deterministically on the sphere of radius 100 about the origin, by
`θ = arccos(2·i/n − 1)` (polar angle about the z-axis, denominator `n`, not
`n − 1`) and azimuth `φ = 2π·0.618·i`, at
`position = 100·(sinθ·cosφ, sinθ·sinφ, cosθ)` — so every initial position has
magnitude exactly 100 — and initializes every node's velocity to the zero
vector. -/
theorem c5_init_amended (s : SimState) (nn : List (String × ℝ)) (nl : List Link)
    (i : ℕ) (h : i < nn.length) :
    nth (drawNetwork3D s nn nl).nodes i
      = { id := (nn.get ⟨i, h⟩).1
          count := (nn.get ⟨i, h⟩).2
          position := initPosition i nn.length
          velocity := 0 }
    ∧ (initPosition i nn.length).length = 100 := by
  refine ⟨?_, initPosition_length i nn.length⟩
  rw [drawNetwork3D, if_neg (by omega : ¬ nn.length = 0)]
  refine (nth_enumFrom_map
    (fun p => { id := p.2.1, count := p.2.2,
                position := initPosition p.1 nn.length,
                velocity := (0 : Vec3) }) nn 0 i h).trans ?_
  simp

/-- Witness for the amended C5, at a concrete one-author rebuild. -/
theorem c5_init_amended_witness :
    0 < ([(("a" : String), (1 : ℝ))]).length
    ∧ nth (drawNetwork3D ⟨[], [], false, 0⟩ [("a", 1)] []).nodes 0
        = { id := "a", count := 1, position := initPosition 0 1, velocity := 0 }
    ∧ (initPosition 0 1).length = 100 := by
  have h2 := c5_init_amended ⟨[], [], false, 0⟩ [("a", 1)] [] 0 (by norm_num)
  exact ⟨by norm_num, by simpa using h2.1, h2.2⟩

/-- Claim C3: from a non-stable, nonempty state, a non-pinned step makes the
engine STABLE exactly when the recorded maximum per-node speed is below
`stabilityThreshold` (0.02) and this is the `stableFramesRequired`-th (15th)
consecutive such step (the counter increments on each sub-threshold step and
resets to zero on any step whose recorded maximum speed reaches the
threshold); on the transition every node's velocity is set to exactly zero;
and once stable, any further step invocation is a no-op. -/
theorem c3_stability_transition (s : SimState)
    (hstable : s.isStable = false) (hne : ¬ s.nodes.length = 0) :
    ((simulatePhysics false s).isStable = true
        ↔ recordedMaxSpeed s < stabilityThreshold
            ∧ stableFramesRequired ≤ s.stableFrameCount + 1)
    ∧ (simulatePhysics false s).stableFrameCount
        = (if recordedMaxSpeed s < stabilityThreshold
           then s.stableFrameCount + 1 else 0)
    ∧ ((simulatePhysics false s).isStable = true
        → ∀ n ∈ (simulatePhysics false s).nodes, n.velocity = 0)
    ∧ (∀ (t : SimState) (b : Bool), t.isStable = true → simulatePhysics b t = t) := by
  rw [simulatePhysics_main s hstable hne, recordedMaxSpeed]
  by_cases hm : maxSpeedOf (attractionPhase (repulsionPhase s.nodes) s.links)
      < stabilityThreshold
  · by_cases hc : stableFramesRequired ≤ s.stableFrameCount + 1
    · rw [if_pos hm, if_pos hc, if_pos hm]
      refine ⟨by simp [hm, hc], rfl, ?_, fun t b ht => stable_step_noop t b ht⟩
      intro _ n hn
      rcases List.mem_map.1 hn with ⟨m, _, rfl⟩
      rfl
    · rw [if_pos hm, if_neg hc, if_pos hm]
      refine ⟨by simp [hstable, hc], rfl, ?_, fun t b ht => stable_step_noop t b ht⟩
      intro habs
      exact absurd habs (by simp [hstable])
  · rw [if_neg hm, if_neg hm]
    refine ⟨by simp [hstable, hm], rfl, ?_, fun t b ht => stable_step_noop t b ht⟩
    intro habs
    exact absurd habs (by simp [hstable])

/-- Witness for C3: a one-node state resting at the origin with 14 prior
consecutive sub-threshold frames; its recorded maximum speed is 0, so the
15th sub-threshold step flips the engine to STABLE. -/
theorem c3_stability_transition_witness :
    (⟨[⟨"a", 1, ⟨0, 0, 0⟩, 0⟩], [], false, 14⟩ : SimState).isStable = false
    ∧ ¬ (⟨[⟨"a", 1, ⟨0, 0, 0⟩, 0⟩], [], false, 14⟩ : SimState).nodes.length = 0
    ∧ recordedMaxSpeed ⟨[⟨"a", 1, ⟨0, 0, 0⟩, 0⟩], [], false, 14⟩ = 0
    ∧ (simulatePhysics false ⟨[⟨"a", 1, ⟨0, 0, 0⟩, 0⟩], [], false, 14⟩).isStable
        = true := by
  have hms : recordedMaxSpeed ⟨[⟨"a", 1, ⟨0, 0, 0⟩, 0⟩], [], false, 14⟩ = 0 := by
    simp [recordedMaxSpeed, attractionPhase, repulsionPhase, repulsionUpdate,
      maxSpeedOf, List.enum, List.enumFrom, Vec3.smul, Vec3.length, Vec3.zero_def,
      Real.sqrt_zero]
  refine ⟨rfl, by norm_num, hms, ?_⟩
  exact ((c3_stability_transition _ rfl (by norm_num)).1).mpr
    ⟨by rw [hms]; norm_num [stabilityThreshold],
     by norm_num [stableFramesRequired]⟩

lemma real_sqrt_100 : Real.sqrt 100 = 10 := by
  rw [show (100 : ℝ) = 10 ^ 2 by norm_num, Real.sqrt_sq (by norm_num : (0 : ℝ) ≤ 10)]

lemma real_sqrt_10000 : Real.sqrt 10000 = 100 := by
  rw [show (10000 : ℝ) = 100 ^ 2 by norm_num,
    Real.sqrt_sq (by norm_num : (0 : ℝ) ≤ 100)]

lemma real_sqrt_25 : Real.sqrt 25 = 5 := by
  rw [show (25 : ℝ) = 5 ^ 2 by norm_num, Real.sqrt_sq (by norm_num : (0 : ℝ) ≤ 5)]

/-- Claim C7: the repulsion pass of a step maps node `i`'s velocity to its
damping-scaled previous velocity plus, for every other index `j` — the pass
takes no link input, so edges play no role — the ordered pair's contribution:
a force of magnitude `repulsionStrength / (d² + 1)` directed from node `j`
toward node `i` (along `normalize(posᵢ − posⱼ)`) when the distance `d`
exceeds `minDistance`, and nothing when `d ≤ minDistance`
(`repulsionContribution` is `0` there); id, weight and position are
untouched by the pass. -/
theorem c7_repulsion (nodes : List Node) (i : ℕ) (h : i < nodes.length) :
    (repulsionPhase nodes).length = nodes.length
    ∧ nth (repulsionPhase nodes) i
        = { nth nodes i with
            velocity :=
              damping • (nth nodes i).velocity
                + ∑ j : Fin nodes.length,
                    (if (j : ℕ) = i then 0
                     else repulsionContribution (nth nodes i) (nodes.get j)) } := by
  refine ⟨repulsionPhase_length nodes, ?_⟩
  rw [repulsionPhase_nth nodes i h]
  exact Node.ext rfl rfl rfl (repulsionUpdate_velocity nodes i (nth nodes i))

/-- Witness for C7 at two nodes 10 apart on the x-axis: node 0's velocity
after the pass evaluates to the single pair force `(−15/101, 0, 0)`. -/
theorem c7_repulsion_witness :
    0 < ([⟨"a", 1, ⟨0, 0, 0⟩, 0⟩, ⟨"b", 1, ⟨10, 0, 0⟩, (0 : Vec3)⟩] : List Node).length
    ∧ (repulsionPhase [⟨"a", 1, ⟨0, 0, 0⟩, 0⟩, ⟨"b", 1, ⟨10, 0, 0⟩, 0⟩]).length = 2
    ∧ (nth (repulsionPhase [⟨"a", 1, ⟨0, 0, 0⟩, 0⟩, ⟨"b", 1, ⟨10, 0, 0⟩, 0⟩]) 0).velocity
        = ⟨-(15 / 101), 0, 0⟩ := by
  have hth := c7_repulsion [⟨"a", 1, ⟨0, 0, 0⟩, 0⟩, ⟨"b", 1, ⟨10, 0, 0⟩, 0⟩] 0
    (by norm_num)
  have hsub : ((⟨0, 0, 0⟩ : Vec3).sub ⟨10, 0, 0⟩) = ⟨-10, 0, 0⟩ := by
    rw [Vec3.sub]
    ext <;> norm_num
  have hlen : (⟨-10, 0, 0⟩ : Vec3).length = 10 := by
    rw [Vec3.length]
    norm_num [real_sqrt_100]
  have hcontrib :
      repulsionContribution (⟨"a", 1, ⟨0, 0, 0⟩, 0⟩ : Node) ⟨"b", 1, ⟨10, 0, 0⟩, 0⟩
        = ⟨-(15 / 101), 0, 0⟩ := by
    rw [repulsionContribution]
    simp only [Vec3.distanceTo, hsub, hlen]
    rw [if_pos (by norm_num [minDistance] : minDistance < (10 : ℝ))]
    rw [Vec3.normalize, hlen, if_neg (by norm_num : (10 : ℝ) ≠ 0)]
    rw [Vec3.smul, Vec3.smul]
    ext <;> norm_num [repulsionStrength]
  refine ⟨by norm_num, hth.1, ?_⟩
  rw [hth.2]
  show damping • (nth _ 0).velocity + _ = _
  rw [show nth [⟨"a", 1, ⟨0, 0, 0⟩, 0⟩, ⟨"b", 1, ⟨10, 0, 0⟩, (0 : Vec3)⟩] 0
      = ⟨"a", 1, ⟨0, 0, 0⟩, 0⟩ from rfl]
  simp only [List.length_cons, List.length_nil, Nat.reduceAdd, Fin.sum_univ_two,
    Fin.isValue, Fin.val_zero, Fin.val_one]
  norm_num [nth, hcontrib, Vec3.smul_def, Vec3.zero_def, Vec3.add_def]
  exact ⟨Or.inl rfl, Or.inl rfl, Or.inl rfl⟩

lemma integrateNode_position_eq (m : Node) :
    (integrateNode m).position
      = (if m.velocity.length < 0.003 then clampPosition m.position
         else clampPosition (m.position + (clampVelocity m.velocity).smul 0.5)) := by
  simp only [integrateNode, clampVelocity]
  split_ifs <;> rfl

lemma integrateNode_velocity_eq (m : Node) :
    (integrateNode m).velocity
      = (if m.velocity.length < 0.003 then 0 else clampVelocity m.velocity) := by
  simp only [integrateNode, clampVelocity]
  split_ifs <;> rfl

/-- Claim C9: the per-node update order within one non-pinned, non-stable
step.  (1) In the repulsion pass each node's velocity is first multiplied by
the damping factor and only then are this step's pair forces added; (2) the
attraction pass afterwards only adds a further force to the velocity and
(3) leaves positions untouched; (4,5,6) integration then works on the
accumulated velocity `afterForces`: the speed is clamped to `maxVelocity`
(`clampVelocity`); below the 0.003 dead zone the velocity snaps to exactly
zero and the position stays (up to the final clamp) unchanged, otherwise the
position advances by the 0.5 sub-unit fraction of the clamped velocity; and
finally the position is renormalized onto the `maxDistance` sphere if its
magnitude exceeds it (`clampPosition`); on a step that triggers the stable
transition the final velocity is additionally zeroed, per C3. -/
theorem c9_integration_order (s : SimState)
    (hstable : s.isStable = false) (hne : ¬ s.nodes.length = 0)
    (i : ℕ) (h : i < s.nodes.length) :
    (nth (repulsionPhase s.nodes) i).velocity
        = damping • (nth s.nodes i).velocity
          + ∑ j : Fin s.nodes.length,
              (if (j : ℕ) = i then 0
               else repulsionContribution (nth s.nodes i) (s.nodes.get j))
    ∧ (∃ dv : Vec3, afterForces s i = (nth (repulsionPhase s.nodes) i).velocity + dv)
    ∧ (nth (attractionPhase (repulsionPhase s.nodes) s.links) i).position
        = (nth s.nodes i).position
    ∧ (simulatePhysics false s).nodes.length = s.nodes.length
    ∧ (nth (simulatePhysics false s).nodes i).position
        = (if (afterForces s i).length < 0.003
           then clampPosition (nth s.nodes i).position
           else clampPosition ((nth s.nodes i).position
                  + (clampVelocity (afterForces s i)).smul 0.5))
    ∧ (nth (simulatePhysics false s).nodes i).velocity
        = (if recordedMaxSpeed s < stabilityThreshold
              ∧ stableFramesRequired ≤ s.stableFrameCount + 1 then 0
           else if (afterForces s i).length < 0.003 then 0
           else clampVelocity (afterForces s i)) := by
  have hn2 : i < (attractionPhase (repulsionPhase s.nodes) s.links).length := by
    rw [attractionPhase_length, repulsionPhase_length]
    exact h
  have hn3 : i < ((attractionPhase (repulsionPhase s.nodes) s.links).map
      integrateNode).length := by
    rw [List.length_map]
    exact hn2
  have hshift := forall₂_nth
    (attractionPhase_velShift s.links (repulsionPhase s.nodes)) i
    (by rw [repulsionPhase_length]; exact h)
  obtain ⟨hid, hcnt, hpos, dv, hv⟩ := hshift
  have hposA : (nth (attractionPhase (repulsionPhase s.nodes) s.links) i).position
      = (nth s.nodes i).position := by
    rw [hpos, repulsionPhase_nth s.nodes i h]
    rfl
  refine ⟨?_, ⟨dv, hv⟩, hposA, ?_, ?_, ?_⟩
  · rw [repulsionPhase_nth s.nodes i h]
    exact repulsionUpdate_velocity s.nodes i (nth s.nodes i)
  · rw [simulatePhysics_main s hstable hne]
    split_ifs <;>
      simp [attractionPhase_length, repulsionPhase_length]
  · by_cases hm : maxSpeedOf (attractionPhase (repulsionPhase s.nodes) s.links)
        < stabilityThreshold
    · by_cases hc : stableFramesRequired ≤ s.stableFrameCount + 1
      · have hnodes : (simulatePhysics false s).nodes
            = ((attractionPhase (repulsionPhase s.nodes) s.links).map
                integrateNode).map (fun n => { n with velocity := 0 }) := by
          rw [simulatePhysics_main s hstable hne, if_pos hm, if_pos hc]
        rw [hnodes, nth_map _ _ i hn3, nth_map integrateNode _ i hn2]
        show (integrateNode
          (nth (attractionPhase (repulsionPhase s.nodes) s.links) i)).position = _
        rw [integrateNode_position_eq, hposA]
        rfl
      · have hnodes : (simulatePhysics false s).nodes
            = (attractionPhase (repulsionPhase s.nodes) s.links).map integrateNode := by
          rw [simulatePhysics_main s hstable hne, if_pos hm, if_neg hc]
        rw [hnodes, nth_map integrateNode _ i hn2, integrateNode_position_eq, hposA]
        rfl
    · have hnodes : (simulatePhysics false s).nodes
          = (attractionPhase (repulsionPhase s.nodes) s.links).map integrateNode := by
        rw [simulatePhysics_main s hstable hne, if_neg hm]
      rw [hnodes, nth_map integrateNode _ i hn2, integrateNode_position_eq, hposA]
      rfl
  · rw [recordedMaxSpeed]
    by_cases hm : maxSpeedOf (attractionPhase (repulsionPhase s.nodes) s.links)
        < stabilityThreshold
    · by_cases hc : stableFramesRequired ≤ s.stableFrameCount + 1
      · have hnodes : (simulatePhysics false s).nodes
            = ((attractionPhase (repulsionPhase s.nodes) s.links).map
                integrateNode).map (fun n => { n with velocity := 0 }) := by
          rw [simulatePhysics_main s hstable hne, if_pos hm, if_pos hc]
        rw [hnodes, nth_map _ _ i hn3, nth_map integrateNode _ i hn2,
          if_pos (And.intro hm hc)]
      · have hnodes : (simulatePhysics false s).nodes
            = (attractionPhase (repulsionPhase s.nodes) s.links).map integrateNode := by
          rw [simulatePhysics_main s hstable hne, if_pos hm, if_neg hc]
        rw [hnodes, nth_map integrateNode _ i hn2,
          if_neg (fun hand => hc hand.2), integrateNode_velocity_eq]
        rfl
    · have hnodes : (simulatePhysics false s).nodes
          = (attractionPhase (repulsionPhase s.nodes) s.links).map integrateNode := by
        rw [simulatePhysics_main s hstable hne, if_neg hm]
      rw [hnodes, nth_map integrateNode _ i hn2,
        if_neg (fun hand => hm hand.1), integrateNode_velocity_eq]
      rfl

/-- Witness for C9: a single node at rest at the origin; the accumulated
velocity of the step is zero, so the dead zone snaps the velocity to zero and
the position stays at the origin. -/
theorem c9_integration_order_witness :
    (⟨[⟨"a", 1, ⟨0, 0, 0⟩, 0⟩], [], false, 0⟩ : SimState).isStable = false
    ∧ (0 : ℕ) < ([⟨"a", 1, ⟨0, 0, 0⟩, (0 : Vec3)⟩] : List Node).length
    ∧ afterForces ⟨[⟨"a", 1, ⟨0, 0, 0⟩, 0⟩], [], false, 0⟩ 0 = 0
    ∧ (nth (simulatePhysics false
          ⟨[⟨"a", 1, ⟨0, 0, 0⟩, 0⟩], [], false, 0⟩).nodes 0).position = ⟨0, 0, 0⟩
    ∧ (nth (simulatePhysics false
          ⟨[⟨"a", 1, ⟨0, 0, 0⟩, 0⟩], [], false, 0⟩).nodes 0).velocity = 0 := by
  have hth := c9_integration_order ⟨[⟨"a", 1, ⟨0, 0, 0⟩, 0⟩], [], false, 0⟩ rfl
    (by norm_num) 0 (by norm_num)
  have haf : afterForces ⟨[⟨"a", 1, ⟨0, 0, 0⟩, 0⟩], [], false, 0⟩ 0 = 0 := by
    simp [afterForces, attractionPhase, repulsionPhase, repulsionUpdate, List.enum,
      List.enumFrom, nth, Vec3.smul, Vec3.zero_def]
  have hczero : clampPosition ⟨0, 0, 0⟩ = ⟨0, 0, 0⟩ := by
    rw [clampPosition, ← Vec3.zero_def, if_neg]
    rw [Vec3.length_zero]
    norm_num [maxDistance]
  have hp := hth.2.2.2.2.1
  rw [haf, Vec3.length_zero, if_pos (by norm_num : (0 : ℝ) < 0.003)] at hp
  rw [show nth [(⟨"a", 1, ⟨0, 0, 0⟩, 0⟩ : Node)] 0
      = ⟨"a", 1, ⟨0, 0, 0⟩, 0⟩ from rfl] at hp
  have hv := hth.2.2.2.2.2
  rw [haf, Vec3.length_zero,
    if_neg (fun hand => absurd hand.2 (by norm_num [stableFramesRequired])),
    if_pos (by norm_num : (0 : ℝ) < 0.003)] at hv
  refine ⟨rfl, by norm_num, haf, ?_, hv⟩
  rw [hp]
  exact hczero

lemma vec_neg_def (v : Vec3) : -v = ⟨-v.x, -v.y, -v.z⟩ := rfl

lemma vec_neg_zero : -(0 : Vec3) = 0 := by
  rw [vec_neg_def]
  ext <;> simp [Vec3.zero_def]

lemma updateFirst_add_zero (nid : String) :
    ∀ nodes : List Node, updateFirst nodes nid (fun v => v + 0) = nodes := by
  intro nodes
  induction nodes with
  | nil => rfl
  | cons n rest ih =>
    rw [updateFirst]
    split_ifs with hid
    · rw [add_zero]
    · rw [ih]

lemma updateFirst_sub_zero (nid : String) :
    ∀ nodes : List Node, updateFirst nodes nid (fun v => v.sub 0) = nodes := by
  intro nodes
  induction nodes with
  | nil => rfl
  | cons n rest ih =>
    rw [updateFirst]
    split_ifs with hid
    · rw [Vec3.sub_zero_vec]
    · rw [ih]

lemma applyLink_coincident (nodes : List Node) (l : Link) (sn tn : Node)
    (hfs : nodes.find? (fun n => n.id = l.source) = some sn)
    (hft : nodes.find? (fun n => n.id = l.target) = some tn)
    (hp : sn.position = tn.position) :
    applyLink nodes l = nodes := by
  have hsub : tn.position.sub sn.position = 0 := by
    rw [hp, Vec3.sub_self_eq_zero]
  simp only [applyLink, hfs, hft, hsub, Vec3.normalize_zero, Vec3.smul_zero_vec]
  split_ifs <;>
    first
      | rw [updateFirst_add_zero, updateFirst_sub_zero]
      | rfl

/-- Claim C4: the guards of the force model keep every value finite for every
input, including coincident (zero-distance) nodes.  (1) From any bounded
state — coincident positions allowed — every component of every node's
position and velocity stays bounded (by 150 resp. 0.8) after any number of
steps with arbitrary flags, so no coordinate can diverge; (2) a pair at
distance at most `minDistance` (in particular at distance zero) contributes
no repulsion at all — its singular direction is never evaluated; (3) a
zero-length edge contributes nothing to either endpoint's velocity:
`normalize` of the zero vector is the zero vector (Three.js's
`divideScalar(length || 1)` guard), so `applyLink` leaves the node list
unchanged. -/
theorem c4_no_nan_guards :
    (∀ (s : SimState) (flags : List Bool), Bounded s →
       ∀ n ∈ (stepsOver flags s).nodes,
         |n.position.x| ≤ maxDistance ∧ |n.position.y| ≤ maxDistance
           ∧ |n.position.z| ≤ maxDistance ∧ |n.velocity.x| ≤ maxVelocity
           ∧ |n.velocity.y| ≤ maxVelocity ∧ |n.velocity.z| ≤ maxVelocity)
    ∧ (∀ a b : Node, a.position.distanceTo b.position ≤ minDistance →
         repulsionContribution a b = 0)
    ∧ (∀ (nodes : List Node) (l : Link) (sn tn : Node),
         nodes.find? (fun n => n.id = l.source) = some sn →
         nodes.find? (fun n => n.id = l.target) = some tn →
         sn.position = tn.position →
         applyLink nodes l = nodes) := by
  refine ⟨?_, ?_,
    fun nodes l sn tn hfs hft hp => applyLink_coincident nodes l sn tn hfs hft hp⟩
  · intro s flags hb n hn
    obtain ⟨hpos, hvel⟩ := bounded_stepsOver flags s hb n hn
    exact ⟨(Vec3.abs_x_le_length _).trans hpos, (Vec3.abs_y_le_length _).trans hpos,
      (Vec3.abs_z_le_length _).trans hpos, (Vec3.abs_x_le_length _).trans hvel,
      (Vec3.abs_y_le_length _).trans hvel, (Vec3.abs_z_le_length _).trans hvel⟩
  · intro a b hd
    simp only [repulsionContribution]
    rw [if_neg (not_lt.2 hd)]

/-- Witness for C4: two coincident nodes at the origin joined by a
(zero-length) edge; the components stay bounded after a non-pinned step, the
coincident pair contributes no repulsion, and the zero-length edge leaves the
node list unchanged. -/
theorem c4_no_nan_guards_witness :
    Bounded ⟨[⟨"a", 1, ⟨0, 0, 0⟩, 0⟩, ⟨"b", 1, ⟨0, 0, 0⟩, 0⟩], [⟨"a", "b", 1⟩], false, 0⟩
    ∧ (∀ n ∈ (stepsOver [false]
          ⟨[⟨"a", 1, ⟨0, 0, 0⟩, 0⟩, ⟨"b", 1, ⟨0, 0, 0⟩, 0⟩],
            [⟨"a", "b", 1⟩], false, 0⟩).nodes,
        |n.position.x| ≤ maxDistance ∧ |n.position.y| ≤ maxDistance
          ∧ |n.position.z| ≤ maxDistance ∧ |n.velocity.x| ≤ maxVelocity
          ∧ |n.velocity.y| ≤ maxVelocity ∧ |n.velocity.z| ≤ maxVelocity)
    ∧ repulsionContribution (⟨"a", 1, ⟨0, 0, 0⟩, 0⟩ : Node) ⟨"b", 1, ⟨0, 0, 0⟩, 0⟩ = 0
    ∧ applyLink [⟨"a", 1, ⟨0, 0, 0⟩, 0⟩, ⟨"b", 1, ⟨0, 0, 0⟩, 0⟩] ⟨"a", "b", 1⟩
        = [⟨"a", 1, ⟨0, 0, 0⟩, 0⟩, ⟨"b", 1, ⟨0, 0, 0⟩, 0⟩] := by
  have hlen0 : (⟨(0 : ℝ), 0, 0⟩ : Vec3).length = 0 := by
    rw [← Vec3.zero_def, Vec3.length_zero]
  have hone : ∀ i : String,
      ((⟨i, 1, ⟨0, 0, 0⟩, 0⟩ : Node)).position.length ≤ maxDistance
        ∧ ((⟨i, 1, ⟨0, 0, 0⟩, 0⟩ : Node)).velocity.length ≤ maxVelocity := by
    intro i
    constructor
    · show (⟨(0 : ℝ), 0, 0⟩ : Vec3).length ≤ maxDistance
      rw [hlen0]
      norm_num [maxDistance]
    · show (0 : Vec3).length ≤ maxVelocity
      rw [Vec3.length_zero]
      norm_num [maxVelocity]
  have hb : Bounded ⟨[⟨"a", 1, ⟨0, 0, 0⟩, 0⟩, ⟨"b", 1, ⟨0, 0, 0⟩, 0⟩],
      [⟨"a", "b", 1⟩], false, 0⟩ := by
    intro n hn
    have hcases : n = (⟨"a", 1, ⟨0, 0, 0⟩, 0⟩ : Node)
        ∨ n = ⟨"b", 1, ⟨0, 0, 0⟩, 0⟩ := by
      simpa using hn
    rcases hcases with rfl | rfl
    · exact hone "a"
    · exact hone "b"
  have hd0 : (⟨"a", 1, ⟨0, 0, 0⟩, (0 : Vec3)⟩ : Node).position.distanceTo
      (⟨"b", 1, ⟨0, 0, 0⟩, (0 : Vec3)⟩ : Node).position = 0 := by
    show (⟨(0 : ℝ), 0, 0⟩ : Vec3).distanceTo ⟨0, 0, 0⟩ = 0
    rw [Vec3.distanceTo, Vec3.sub_self_eq_zero, Vec3.length_zero]
  have hfs : ([⟨"a", 1, ⟨0, 0, 0⟩, 0⟩, ⟨"b", 1, ⟨0, 0, 0⟩, 0⟩] : List Node).find?
      (fun n => n.id = (⟨"a", "b", 1⟩ : Link).source) = some ⟨"a", 1, ⟨0, 0, 0⟩, 0⟩ := by
    rfl
  have hft : ([⟨"a", 1, ⟨0, 0, 0⟩, 0⟩, ⟨"b", 1, ⟨0, 0, 0⟩, 0⟩] : List Node).find?
      (fun n => n.id = (⟨"a", "b", 1⟩ : Link).target) = some ⟨"b", 1, ⟨0, 0, 0⟩, 0⟩ := by
    rfl
  refine ⟨hb, c4_no_nan_guards.1 _ [false] hb, ?_, ?_⟩
  · exact c4_no_nan_guards.2.1 _ _ (by rw [hd0]; norm_num [minDistance])
  · exact c4_no_nan_guards.2.2 _ _ _ _ hfs hft rfl

/-- Claim C8 (refuted by the code; an aliasing slip): the attraction pass
does not subtract from B the same signed force it adds to A.  The source
reuses its `direction` vector — `multiplyScalar(force)` mutates it in
place — so after `sourceNode.velocity.add(direction.multiplyScalar(force))`
the second call `targetNode.velocity.sub(direction.multiplyScalar(force))`
subtracts the twice-scaled `direction·force²`.  Evaluated at two nodes 100
apart joined by a weight-1 edge: `force = (100 − 80)·0.004 = 0.08`, A's
velocity gains `(0.08, 0, 0)`, but B's velocity becomes `(−0.0064, 0, 0)` —
minus force squared — instead of the `(−0.08, 0, 0)` the claim (and the
spec's symmetric spring) prescribes. -/
theorem c8_attraction_bug_eval :
    attractionPhase [⟨"a", 1, ⟨0, 0, 0⟩, 0⟩, ⟨"b", 1, ⟨100, 0, 0⟩, 0⟩]
        [⟨"a", "b", 1⟩]
      = [⟨"a", 1, ⟨0, 0, 0⟩, ⟨0.08, 0, 0⟩⟩, ⟨"b", 1, ⟨100, 0, 0⟩, ⟨-0.0064, 0, 0⟩⟩]
    ∧ ((-0.0064 : ℝ) ≠ -0.08) := by
  refine ⟨?_, by norm_num⟩
  have hfs : ([⟨"a", 1, ⟨0, 0, 0⟩, 0⟩, ⟨"b", 1, ⟨100, 0, 0⟩, 0⟩] : List Node).find?
      (fun n => n.id = (⟨"a", "b", 1⟩ : Link).source)
      = some ⟨"a", 1, ⟨0, 0, 0⟩, 0⟩ := rfl
  have hft : ([⟨"a", 1, ⟨0, 0, 0⟩, 0⟩, ⟨"b", 1, ⟨100, 0, 0⟩, 0⟩] : List Node).find?
      (fun n => n.id = (⟨"a", "b", 1⟩ : Link).target)
      = some ⟨"b", 1, ⟨100, 0, 0⟩, 0⟩ := rfl
  rw [attractionPhase, List.foldl_cons, List.foldl_nil]
  simp only [applyLink, hfs, hft]
  norm_num [Vec3.distanceTo, Vec3.sub, Vec3.length, real_sqrt_10000, Vec3.normalize,
    Vec3.smul, updateFirst, Vec3.add_def, Vec3.zero_def, idealDistance,
    attractionStrength]
  rw [if_pos (show (1 : ℝ) / 1000 < |(2 : ℝ) / 25| from by
      rw [abs_of_pos (by norm_num : (0 : ℝ) < 2 / 25)]
      norm_num),
    if_neg (show ¬ ("a" = "b") from by decide)]
  norm_num [Vec3.zero_def]
  exact ⟨rfl, rfl, rfl⟩

section PickLemmas

lemma raySphereHit_pos {o d c : Vec3} {r t : ℝ}
    (h : raySphereHit o d c r = some t) : 0 < t := by
  simp only [raySphereHit] at h
  split_ifs at h with h1 h2 h3
  all_goals
    rw [Option.some.injEq] at h
    rw [← h]
    assumption

lemma pickStep_none {o d : Vec3} {b : Option (String × ℝ)} {n : Node}
    (h : pickStep o d b n = none) : b = none ∧ hitOf o d n = none := by
  cases hh : hitOf o d n with
  | none =>
    simp only [pickStep, hh] at h
    exact ⟨h, rfl⟩
  | some t =>
    cases b with
    | none =>
      simp only [pickStep, hh] at h
      exact absurd h (by simp)
    | some p =>
      obtain ⟨j, tb⟩ := p
      simp only [pickStep, hh] at h
      split_ifs at h

lemma pick_fold_good (o d : Vec3) :
    ∀ (ns : List Node) (b : Option (String × ℝ)),
      PickGood o d ns b (ns.foldl (pickStep o d) b) := by
  intro ns
  induction ns with
  | nil =>
    intro b
    cases b with
    | none => exact ⟨rfl, fun n hn => absurd hn (List.not_mem_nil n)⟩
    | some p =>
      obtain ⟨i, t⟩ := p
      refine ⟨Or.inl rfl, ?_, fun n hn => absurd hn (List.not_mem_nil n)⟩
      intro q hq
      rw [Option.some.injEq] at hq
      rw [← hq]
  | cons n ns ih =>
    intro b
    rw [List.foldl_cons]
    have hg := ih (pickStep o d b n)
    cases hr : ns.foldl (pickStep o d) (pickStep o d b n) with
    | none =>
      rw [hr] at hg
      obtain ⟨hstep, hns⟩ := hg
      obtain ⟨hb, hn⟩ := pickStep_none hstep
      refine ⟨hb, ?_⟩
      intro m hm
      rcases List.mem_cons.1 hm with rfl | hm2
      · exact hn
      · exact hns m hm2
    | some p =>
      obtain ⟨i, t⟩ := p
      rw [hr] at hg
      obtain ⟨horig, hbmin, hmin⟩ := hg
      cases hh : hitOf o d n with
      | none =>
        have hstep : pickStep o d b n = b := by simp only [pickStep, hh]
        rw [hstep] at horig hbmin
        refine ⟨?_, hbmin, ?_⟩
        · rcases horig with hl | ⟨m, hm, hmi, hmt⟩
          · exact Or.inl hl
          · exact Or.inr ⟨m, List.mem_cons_of_mem n hm, hmi, hmt⟩
        · intro m hm u hu
          rcases List.mem_cons.1 hm with rfl | hm2
          · rw [hh] at hu
            exact absurd hu (by simp)
          · exact hmin m hm2 u hu
      | some u0 =>
        cases b with
        | none =>
          have hstep : pickStep o d none n = some (n.id, u0) := by
            simp only [pickStep, hh]
          rw [hstep] at horig hbmin
          have htu : t ≤ u0 := by simpa using hbmin (n.id, u0) rfl
          refine ⟨?_, ?_, ?_⟩
          · rcases horig with hl | ⟨m, hm, hmi, hmt⟩
            · rw [Option.some.injEq, Prod.mk.injEq] at hl
              refine Or.inr ⟨n, List.mem_cons_self n ns, hl.1, ?_⟩
              rw [hh, hl.2]
            · exact Or.inr ⟨m, List.mem_cons_of_mem n hm, hmi, hmt⟩
          · intro q hq
            exact absurd hq (by simp)
          · intro m hm u hu
            rcases List.mem_cons.1 hm with rfl | hm2
            · rw [hh, Option.some.injEq] at hu
              rw [← hu]
              exact htu
            · exact hmin m hm2 u hu
        | some q =>
          obtain ⟨j, tb⟩ := q
          by_cases hlt : u0 < tb
          · have hstep : pickStep o d (some (j, tb)) n = some (n.id, u0) := by
              simp only [pickStep, hh]
              rw [if_pos hlt]
            rw [hstep] at horig hbmin
            have htu : t ≤ u0 := by simpa using hbmin (n.id, u0) rfl
            refine ⟨?_, ?_, ?_⟩
            · rcases horig with hl | ⟨m, hm, hmi, hmt⟩
              · rw [Option.some.injEq, Prod.mk.injEq] at hl
                refine Or.inr ⟨n, List.mem_cons_self n ns, hl.1, ?_⟩
                rw [hh, hl.2]
              · exact Or.inr ⟨m, List.mem_cons_of_mem n hm, hmi, hmt⟩
            · intro q hq
              rw [Option.some.injEq] at hq
              rw [← hq]
              exact le_of_lt (lt_of_le_of_lt htu hlt)
            · intro m hm u hu
              rcases List.mem_cons.1 hm with rfl | hm2
              · rw [hh, Option.some.injEq] at hu
                rw [← hu]
                exact htu
              · exact hmin m hm2 u hu
          · have hstep : pickStep o d (some (j, tb)) n = some (j, tb) := by
              simp only [pickStep, hh]
              rw [if_neg hlt]
            rw [hstep] at horig hbmin
            have httb : t ≤ tb := by simpa using hbmin (j, tb) rfl
            refine ⟨?_, ?_, ?_⟩
            · rcases horig with hl | ⟨m, hm, hmi, hmt⟩
              · rw [Option.some.injEq] at hl
                exact Or.inl (congrArg some hl)
              · exact Or.inr ⟨m, List.mem_cons_of_mem n hm, hmi, hmt⟩
            · intro q hq
              rw [Option.some.injEq] at hq
              rw [← hq]
              exact httb
            · intro m hm u hu
              rcases List.mem_cons.1 hm with rfl | hm2
              · rw [hh, Option.some.injEq] at hu
                rw [← hu]
                exact httb.trans (not_lt.1 hlt)
              · exact hmin m hm2 u hu

end PickLemmas

/-- Claim C10: picking is a pure query of the ray and the current node list.
With per-node sphere radius `nodeRadius = sqrt(weight)·2 + 3` (the radius the
render layer also uses), `pick` returns `none` exactly when no node's sphere
is hit — in particular on the empty node list — and otherwise the id of a
hit node achieving the smallest positive hit distance along the ray,
together with that distance; it modifies no position or velocity (its output
contains no state).  The ray-sphere intersection itself is modelled from the
spec, since the component delegates it to the Three.js `Raycaster`. -/
theorem c10_pick_correct (o d : Vec3) (nodes : List Node) :
    (pick o d ([] : List Node) = none)
    ∧ (pick o d nodes = none ↔ ∀ n ∈ nodes, hitOf o d n = none)
    ∧ (∀ (i : String) (t : ℝ), pick o d nodes = some (i, t) →
        0 < t
        ∧ (∃ n ∈ nodes, n.id = i ∧ hitOf o d n = some t)
        ∧ (∀ n ∈ nodes, ∀ u : ℝ, hitOf o d n = some u → t ≤ u)) := by
  have hg : PickGood o d nodes none (pick o d nodes) := pick_fold_good o d nodes none
  refine ⟨rfl, ?_, ?_⟩
  · constructor
    · intro hp
      rw [hp] at hg
      exact hg.2
    · intro hall
      cases hp : pick o d nodes with
      | none => rfl
      | some p =>
        obtain ⟨i, t⟩ := p
        rw [hp] at hg
        obtain ⟨horig, -, -⟩ := hg
        rcases horig with hl | ⟨m, hm, -, hmt⟩
        · exact absurd hl (by simp)
        · rw [hall m hm] at hmt
          exact absurd hmt (by simp)
  · intro i t hp
    rw [hp] at hg
    obtain ⟨horig, -, hmin⟩ := hg
    have hex : ∃ n ∈ nodes, n.id = i ∧ hitOf o d n = some t := by
      rcases horig with hl | hex
      · exact absurd hl (by simp)
      · exact hex
    obtain ⟨n, hn, hni, hnt⟩ := hex
    exact ⟨raySphereHit_pos hnt, ⟨n, hn, hni, hnt⟩, hmin⟩

/-- Witness for C10, at the spec's concrete picking scenario: weight-1 nodes
(radius 5) at the origin, (100,0,0) and (0,100,0), ray origin (0,0,50),
direction (0,0,−1): the origin node is hit at distance 50 − 5 = 45, the
others are missed, and `pick` returns it. -/
theorem c10_pick_correct_witness :
    pick ⟨0, 0, 50⟩ ⟨0, 0, -1⟩
        [⟨"A", 1, ⟨0, 0, 0⟩, 0⟩, ⟨"B", 1, ⟨100, 0, 0⟩, 0⟩, ⟨"C", 1, ⟨0, 100, 0⟩, 0⟩]
      = some ("A", 45)
    ∧ (0 : ℝ) < 45
    ∧ (∃ n ∈ ([⟨"A", 1, ⟨0, 0, 0⟩, 0⟩, ⟨"B", 1, ⟨100, 0, 0⟩, 0⟩,
          ⟨"C", 1, ⟨0, 100, 0⟩, 0⟩] : List Node),
        n.id = "A" ∧ hitOf ⟨0, 0, 50⟩ ⟨0, 0, -1⟩ n = some 45)
    ∧ (∀ n ∈ ([⟨"A", 1, ⟨0, 0, 0⟩, 0⟩, ⟨"B", 1, ⟨100, 0, 0⟩, 0⟩,
          ⟨"C", 1, ⟨0, 100, 0⟩, 0⟩] : List Node),
        ∀ u : ℝ, hitOf ⟨0, 0, 50⟩ ⟨0, 0, -1⟩ n = some u → (45 : ℝ) ≤ u) := by
  have hA : hitOf ⟨0, 0, 50⟩ ⟨0, 0, -1⟩ (⟨"A", 1, ⟨0, 0, 0⟩, 0⟩ : Node)
      = some 45 := by
    show raySphereHit ⟨0, 0, 50⟩ ⟨0, 0, -1⟩ ⟨0, 0, 0⟩
      (nodeRadius ⟨"A", 1, ⟨0, 0, 0⟩, 0⟩) = some 45
    rw [show nodeRadius ⟨"A", 1, ⟨0, 0, 0⟩, 0⟩ = 5 from by
      rw [nodeRadius]
      norm_num [Real.sqrt_one]]
    simp only [raySphereHit, Vec3.sub, Vec3.dot]
    norm_num [real_sqrt_25]
  have hB : hitOf ⟨0, 0, 50⟩ ⟨0, 0, -1⟩ (⟨"B", 1, ⟨100, 0, 0⟩, 0⟩ : Node)
      = none := by
    show raySphereHit ⟨0, 0, 50⟩ ⟨0, 0, -1⟩ ⟨100, 0, 0⟩
      (nodeRadius ⟨"B", 1, ⟨100, 0, 0⟩, 0⟩) = none
    rw [show nodeRadius ⟨"B", 1, ⟨100, 0, 0⟩, 0⟩ = 5 from by
      rw [nodeRadius]
      norm_num [Real.sqrt_one]]
    simp only [raySphereHit, Vec3.sub, Vec3.dot]
    norm_num
  have hC : hitOf ⟨0, 0, 50⟩ ⟨0, 0, -1⟩ (⟨"C", 1, ⟨0, 100, 0⟩, 0⟩ : Node)
      = none := by
    show raySphereHit ⟨0, 0, 50⟩ ⟨0, 0, -1⟩ ⟨0, 100, 0⟩
      (nodeRadius ⟨"C", 1, ⟨0, 100, 0⟩, 0⟩) = none
    rw [show nodeRadius ⟨"C", 1, ⟨0, 100, 0⟩, 0⟩ = 5 from by
      rw [nodeRadius]
      norm_num [Real.sqrt_one]]
    simp only [raySphereHit, Vec3.sub, Vec3.dot]
    norm_num
  have hp : pick ⟨0, 0, 50⟩ ⟨0, 0, -1⟩
      [⟨"A", 1, ⟨0, 0, 0⟩, 0⟩, ⟨"B", 1, ⟨100, 0, 0⟩, 0⟩, ⟨"C", 1, ⟨0, 100, 0⟩, 0⟩]
      = some ("A", 45) := by
    rw [pick, List.foldl_cons, List.foldl_cons, List.foldl_cons, List.foldl_nil]
    rw [show pickStep ⟨0, 0, 50⟩ ⟨0, 0, -1⟩ none (⟨"A", 1, ⟨0, 0, 0⟩, 0⟩ : Node)
        = some ("A", 45) from by simp only [pickStep, hA]]
    rw [show pickStep ⟨0, 0, 50⟩ ⟨0, 0, -1⟩ (some ("A", 45))
        (⟨"B", 1, ⟨100, 0, 0⟩, 0⟩ : Node) = some ("A", 45) from by
      simp only [pickStep, hB]]
    rw [show pickStep ⟨0, 0, 50⟩ ⟨0, 0, -1⟩ (some ("A", 45))
        (⟨"C", 1, ⟨0, 100, 0⟩, 0⟩ : Node) = some ("A", 45) from by
      simp only [pickStep, hC]]
  have h3 := (c10_pick_correct ⟨0, 0, 50⟩ ⟨0, 0, -1⟩
    [⟨"A", 1, ⟨0, 0, 0⟩, 0⟩, ⟨"B", 1, ⟨100, 0, 0⟩, 0⟩,
      ⟨"C", 1, ⟨0, 100, 0⟩, 0⟩]).2.2 "A" 45 hp
  exact ⟨hp, h3.1, h3.2.1, h3.2.2⟩

end Net3D
